/-
Verification of the BamBlend 3MF parsing/serialization core against its
natural-language specification.

Shallow embedding conventions:
* Python floats are modelled as exact rationals (ℚ); decimal formatting
  (the Python "%.8g" / "%.9g" f-strings) is idealized to exact values.
* Fallible Python code (int()/float() raising ValueError) is modelled with
  Option / Except Unit.
* Python dicts with string keys are modelled as ordered association lists,
  matching CPython's insertion-order semantics.
* The transform string handed to parse_3mf_transform is modelled after
  str.strip().split(): a list of tokens, each either numeric (carrying the
  value float() would produce) or non-numeric (on which float() raises).
-/
import Mathlib

namespace BamBlend

/-- Token of a whitespace-split transform string: `num v` is a token that
Python `float()` accepts (with value `v`), `other s` is a token on which
`float()` raises `ValueError`. -/
inductive Tok where
  | num (v : ℚ)
  | other (s : String)
deriving DecidableEq, Repr

/-- Value of a token under Python `float()`: `none` means `ValueError`. -/
def Tok.val? : Tok → Option ℚ
  | .num v => some v
  | .other _ => none

/-- Source: transform.py line 18, `MM_TO_M = 0.001`. -/
def MM_TO_M : ℚ := 1 / 1000

/-- Source: transform.py line 19, `M_TO_MM = 1000.0`. -/
def M_TO_MM : ℚ := 1000

/-- Row-major 4x4 matrix of rationals, the model of `mathutils.Matrix`
built from four row tuples (transform.py lines 38-43). -/
structure Mat4 where
  m00 : ℚ
  m01 : ℚ
  m02 : ℚ
  m03 : ℚ
  m10 : ℚ
  m11 : ℚ
  m12 : ℚ
  m13 : ℚ
  m20 : ℚ
  m21 : ℚ
  m22 : ℚ
  m23 : ℚ
  m30 : ℚ
  m31 : ℚ
  m32 : ℚ
  m33 : ℚ
deriving DecidableEq, Repr

/-- Model of `Matrix.Identity(4)`. -/
def identity4 : Mat4 :=
  ⟨1, 0, 0, 0, 0, 1, 0, 0, 0, 0, 1, 0, 0, 0, 0, 1⟩

instance {ε α : Type} [DecidableEq ε] [DecidableEq α] : DecidableEq (Except ε α) := by
  intro a b
  cases a <;> cases b
  case error.error x y =>
    exact if h : x = y then .isTrue (by rw [h]) else
      .isFalse (by intro hc; injection hc; contradiction)
  case error.ok x y => exact .isFalse (by intro hc; exact Except.noConfusion hc)
  case ok.error x y => exact .isFalse (by intro hc; exact Except.noConfusion hc)
  case ok.ok x y =>
    exact if h : x = y then .isTrue (by rw [h]) else
      .isFalse (by intro hc; injection hc; contradiction)

/-- Model of the list comprehension `[float(v) for v in tokens]`
(transform.py line 33): evaluates tokens left to right, propagating the
first `ValueError` (`none`). -/
def floatList : List Tok → Option (List ℚ)
  | [] => some []
  | t :: ts =>
    match Tok.val? t with
    | none => none
    | some v => (floatList ts).map (fun vs => v :: vs)

/-- Source: transform.py lines 24-43, `parse_3mf_transform`.
The empty token list covers the `if not transform_str or not
transform_str.strip()` early return (a missing/empty/whitespace-only
string splits into zero tokens).  `Except.error ()` models a raised
`ValueError` from `float()`. -/
def parse_3mf_transform (tokens : List Tok) (scale : ℚ) : Except Unit Mat4 :=
  if tokens = [] then .ok identity4
  else
    match floatList tokens with
    | none => .error ()
    | some vals =>
      if h : vals.length = 12 then
        .ok ⟨vals.get ⟨0, by omega⟩, vals.get ⟨3, by omega⟩,
             vals.get ⟨6, by omega⟩, vals.get ⟨9, by omega⟩ * scale,
             vals.get ⟨1, by omega⟩, vals.get ⟨4, by omega⟩,
             vals.get ⟨7, by omega⟩, vals.get ⟨10, by omega⟩ * scale,
             vals.get ⟨2, by omega⟩, vals.get ⟨5, by omega⟩,
             vals.get ⟨8, by omega⟩, vals.get ⟨11, by omega⟩ * scale,
             0, 0, 0, 1⟩
      else .ok identity4

/-- Source: transform.py lines 46-57, `matrix_to_3mf_transform`.
Returns the twelve emitted numbers in emission order; the "%.9g" decimal
formatting is idealized to exact rational values. -/
def matrix_to_3mf_transform (mat : Mat4) (scale : ℚ) : List ℚ :=
  [mat.m00, mat.m10, mat.m20,
   mat.m01, mat.m11, mat.m21,
   mat.m02, mat.m12, mat.m22,
   mat.m03 * scale, mat.m13 * scale, mat.m23 * scale]

/-- The encoded transform string as token list: every emitted number is a
numeric token (decimal formatting always yields a float()-parsable token). -/
def encodeTokens (mat : Mat4) (scale : ℚ) : List Tok :=
  (matrix_to_3mf_transform mat scale).map Tok.num

end BamBlend

namespace BamBlend

/-- Helper: `floatList` succeeds on token lists that are all numeric,
yielding a value list of the same length. -/
theorem floatList_all_num (l : List Tok) (h : ∀ t ∈ l, (Tok.val? t).isSome) :
    ∃ vs, floatList l = some vs ∧ vs.length = l.length := by
  induction l with
  | nil => exact ⟨[], rfl, rfl⟩
  | cons t ts ih =>
    have ht := h t (List.mem_cons_self t ts)
    obtain ⟨v, hv⟩ : ∃ v, Tok.val? t = some v := by
      cases hval : Tok.val? t with
      | none => rw [hval] at ht; simp at ht
      | some v => exact ⟨v, rfl⟩
    obtain ⟨vs, hvs, hlen⟩ := ih (fun u hu => h u (List.mem_cons_of_mem t hu))
    refine ⟨v :: vs, ?_, by simp [hlen]⟩
    simp [floatList, hv, hvs]

/-- Helper: computation of `parse_3mf_transform` on an arbitrary 12-token
numeric string. -/
theorem parse_3mf_transform_twelve (a b c d e f g h i j k l s : ℚ) :
    parse_3mf_transform
      [.num a, .num b, .num c, .num d, .num e, .num f,
       .num g, .num h, .num i, .num j, .num k, .num l] s =
    .ok ⟨a, d, g, j * s,
         b, e, h, k * s,
         c, f, i, l * s,
         0, 0, 0, 1⟩ := rfl

/-- Helper: `floatList` fails as soon as one token is non-numeric. -/
theorem floatList_bad (l : List Tok) (h : ∃ t ∈ l, Tok.val? t = none) :
    floatList l = none := by
  induction l with
  | nil => simp at h
  | cons t ts ih =>
    obtain ⟨u, hu, hbad⟩ := h
    rcases List.mem_cons.mp hu with rfl | hmem
    · simp [floatList, hbad]
    · cases hval : Tok.val? t with
      | none => simp [floatList, hval]
      | some v => simp [floatList, hval, ih ⟨u, hmem, hbad⟩]

end BamBlend

namespace BamBlend

/-- C7: decoding any 12-token numeric transform string with scale `s`
places the input's three rows as the matrix's first three columns,
scales only the translation triple (tokens 10-12) by `s`, leaves the
3x3 linear block unscaled, and sets the bottom row to (0, 0, 0, 1). -/
theorem c7_decode_layout (a b c d e f g h i j k l s : ℚ) :
    parse_3mf_transform
      [.num a, .num b, .num c, .num d, .num e, .num f,
       .num g, .num h, .num i, .num j, .num k, .num l] s =
    .ok ⟨a, d, g, j * s,
         b, e, h, k * s,
         c, f, i, l * s,
         0, 0, 0, 1⟩ :=
  parse_3mf_transform_twelve a b c d e f g h i j k l s

/-- C1 counterexample: a transform string containing non-numeric tokens
("x 2 3") makes `parse_3mf_transform` raise a `ValueError` (modelled as
`Except.error ()`) instead of returning the identity matrix. -/
theorem c1_counterexample :
    parse_3mf_transform [Tok.other "x", Tok.num 2, Tok.num 3] MM_TO_M = .error () ∧
    parse_3mf_transform [Tok.other "x", Tok.num 2, Tok.num 3] MM_TO_M ≠ .ok identity4 := by
  refine ⟨rfl, ?_⟩
  intro h
  rw [show parse_3mf_transform [Tok.other "x", Tok.num 2, Tok.num 3] MM_TO_M
        = .error () from rfl] at h
  simp at h

/-- C1 (amended): an empty/missing transform string, or one whose tokens
are all numeric but do not number exactly 12, decodes to the identity
matrix without error; a transform string containing a non-numeric token
raises `ValueError` instead. -/
theorem c1_lenient_identity (tokens : List Tok) (s : ℚ) :
    ((∀ t ∈ tokens, (Tok.val? t).isSome) → tokens.length ≠ 12 →
      parse_3mf_transform tokens s = .ok identity4) ∧
    ((∃ t ∈ tokens, Tok.val? t = none) →
      parse_3mf_transform tokens s = .error ()) := by
  constructor
  · intro hnum hlen
    by_cases he : tokens = []
    · simp [parse_3mf_transform, he]
    · obtain ⟨vs, hvs, hl⟩ := floatList_all_num tokens hnum
      have hvlen : ¬ vs.length = 12 := by rw [hl]; exact hlen
      simp [parse_3mf_transform, he, hvs, hvlen]
  · intro hbad
    have hne : ¬ tokens = [] := by rintro rfl; simp at hbad
    simp [parse_3mf_transform, hne, floatList_bad tokens hbad]

/-- C1 witness: evaluates the amended claim at two concrete inputs
(an all-numeric 2-token string, and a string with a non-numeric token). -/
theorem c1_lenient_identity_witness :
    parse_3mf_transform [Tok.num 1, Tok.num 2] 1 = .ok identity4 ∧
    parse_3mf_transform [Tok.other "x"] 1 = .error () :=
  ⟨(c1_lenient_identity [Tok.num 1, Tok.num 2] 1).1 (by decide) (by decide),
   (c1_lenient_identity [Tok.other "x"] 1).2 ⟨Tok.other "x", by decide, rfl⟩⟩

/-- C4 counterexample: a 4x4 matrix whose bottom row is not (0,0,0,1)
is not reconstructed by decode(encode(M, s), 1/s): the twelve-number
transform string cannot carry the bottom row, which decode forces to
(0,0,0,1); here entry (3,3) of the reconstruction is 1 while M has 2,
far outside the 1e-6 relative tolerance. -/
theorem c4_counterexample :
    parse_3mf_transform
        (encodeTokens ⟨1,0,0,0, 0,1,0,0, 0,0,1,0, 0,0,0,2⟩ 1) (1 : ℚ)⁻¹ =
      .ok identity4 ∧
    identity4.m33 ≠ (2 : ℚ) ∧
    (1 / 1000000 : ℚ) * |(2 : ℚ)| < |identity4.m33 - 2| := by
  refine ⟨?_, by norm_num [identity4], by norm_num [identity4]⟩
  show parse_3mf_transform
      [.num 1, .num 0, .num 0,
       .num 0, .num 1, .num 0,
       .num 0, .num 0, .num 1,
       .num (0 * 1), .num (0 * 1), .num (0 * 1)] (1 : ℚ)⁻¹ = .ok identity4
  rw [parse_3mf_transform_twelve]
  norm_num [identity4]

/-- C4 (amended): for every 4x4 matrix M whose bottom row is (0,0,0,1)
(the shape of every affine matrix the host supplies) and every nonzero
scale s, decoding the encoding of M (scale s) with scale 1/s reconstructs
M exactly (hence within any tolerance). -/
theorem c4_roundtrip (M : Mat4) (s : ℚ) (hs : s ≠ 0)
    (h30 : M.m30 = 0) (h31 : M.m31 = 0) (h32 : M.m32 = 0) (h33 : M.m33 = 1) :
    parse_3mf_transform (encodeTokens M s) s⁻¹ = .ok M := by
  obtain ⟨a, b, c, d, e, f, g, hh, i, j, k, l, p, q, r, t⟩ := M
  simp only at h30 h31 h32 h33
  subst h30 h31 h32 h33
  have key : ∀ x : ℚ, x * s * s⁻¹ = x := fun x => by
    rw [mul_assoc, mul_inv_cancel₀ hs, mul_one]
  show Except.ok (⟨a, b, c, d * s * s⁻¹,
                   e, f, g, hh * s * s⁻¹,
                   i, j, k, l * s * s⁻¹,
                   0, 0, 0, 1⟩ : Mat4) = _
  rw [key d, key hh, key l]

/-- C4 witness: round-trips a concrete translation matrix at scale 2. -/
theorem c4_roundtrip_witness :
    parse_3mf_transform
        (encodeTokens ⟨1,0,0,5, 0,1,0,6, 0,0,1,7, 0,0,0,1⟩ 2) (2 : ℚ)⁻¹ =
      .ok ⟨1,0,0,5, 0,1,0,6, 0,0,1,7, 0,0,0,1⟩ :=
  c4_roundtrip ⟨1,0,0,5, 0,1,0,6, 0,0,1,7, 0,0,0,1⟩ 2 (by norm_num) rfl rfl rfl rfl

end BamBlend

namespace BamBlend

/-- Lookup in an ordered association list (the model of Python
`d.get(key)` on a string-keyed dict): first matching key wins. -/
def lookupKV : List (String × String) → String → Option String
  | [], _ => none
  | (k, v) :: rest, key => if k = key then some v else lookupKV rest key

/-- Model of `d[key] = val` on a Python dict: if the key is present its
value is replaced in place (insertion-order position preserved), else the
pair is appended. -/
def alistSet : List (String × String) → String → String → List (String × String)
  | [], key, val => [(key, val)]
  | (k, v) :: rest, key, val =>
    if k = key then (k, val) :: rest else (k, v) :: alistSet rest key val

/-- Model of one `<plate>` entry of the round-tripped `ms_plates` JSON
(parser.py `_parse_model_settings_plates`): a metadata dict plus a list of
`model_instance` dicts. -/
structure MsPlate where
  metadata : List (String × String)
  instances : List (List (String × String))
deriving DecidableEq, Repr

/-- The filter predicate of serializer.py line 514-517: keep an instance
iff its `object_id` (default `""`) is in the valid-id set. -/
def instValid (valid : List String) (inst : List (String × String)) : Bool :=
  decide (((lookupKV inst "object_id").getD "") ∈ valid)

/-- The first loop of `_clean_stale_plates` (serializer.py lines 512-521):
filter each plate's instances, keep the plate only when some instance
survives. -/
def cleanPassPlates (valid : List String) : List MsPlate → List MsPlate
  | [] => []
  | p :: rest =>
    let kept := p.instances.filter (instValid valid)
    if kept.isEmpty then cleanPassPlates valid rest
    else { p with instances := kept } :: cleanPassPlates valid rest

/-- The renumbering loop of `_clean_stale_plates` (serializer.py lines
523-527): `meta["index"] = str(i + 1)` for the i-th surviving plate. -/
def renumberPlates : ℕ → List MsPlate → List MsPlate
  | _, [] => []
  | i, p :: rest =>
    { p with metadata := alistSet p.metadata "index" (toString (i + 1)) } ::
      renumberPlates (i + 1) rest

/-- Source: serializer.py lines 504-529, `_clean_stale_plates`. -/
def _clean_stale_plates (ms_plates : List MsPlate) (valid_object_ids : List String) :
    List MsPlate :=
  if ms_plates.isEmpty then ms_plates
  else renumberPlates 0 (cleanPassPlates valid_object_ids ms_plates)

/-- Source: serializer.py lines 532-539, `_clean_stale_assemble`:
model of one `assemble_item` dict (the four keys the serializer reads). -/
structure AsmItem where
  object_id : String
  instance_id : String
  transform : String
  offset : String
deriving DecidableEq, Repr

/-- Source: serializer.py lines 532-539, `_clean_stale_assemble`. -/
def _clean_stale_assemble (ms_assemble : List AsmItem) (valid_object_ids : List String) :
    List AsmItem :=
  if ms_assemble.isEmpty then ms_assemble
  else ms_assemble.filter (fun item => decide (item.object_id ∈ valid_object_ids))

/-- Model of an `<object>` entry of a parsed slice_info plate
(parser.py lines 292-297). -/
structure SliceObjJ where
  identify_id : String
  name : String
  skipped : Bool
deriving DecidableEq, Repr

/-- Model of one parsed filament entry (parser.py lines 299-309). -/
structure FilR where
  id : ℕ
  ftype : String
  color : String
  tray_info_idx : String
  used_m : String
  used_g : String
deriving DecidableEq, Repr

/-- Model of one plate of the round-tripped `plates` JSON
(parser.py `_parse_slice_info` output: index, metadata, objects,
filaments).  Only `metadata` and `objects` are touched by cleanup; the
other fields ride along through the `dict(plate)` copy. -/
structure SlicePlateJ where
  index : ℤ
  metadata : List (String × String)
  objects : List SliceObjJ
  filaments : List FilR
deriving DecidableEq, Repr

/-- The filter predicate of serializer.py lines 552-555: keep an object
entry iff its `name` is in the valid-name set. -/
def sliceObjValid (valid : List String) (obj : SliceObjJ) : Bool :=
  decide (obj.name ∈ valid)

/-- The first loop of `_clean_stale_slice_plates` (serializer.py lines
550-559). -/
def cleanPassSlice (valid : List String) : List SlicePlateJ → List SlicePlateJ
  | [] => []
  | p :: rest =>
    let kept := p.objects.filter (sliceObjValid valid)
    if kept.isEmpty then cleanPassSlice valid rest
    else { p with objects := kept } :: cleanPassSlice valid rest

/-- The renumbering loop of `_clean_stale_slice_plates` (serializer.py
lines 561-565). -/
def renumberSlice : ℕ → List SlicePlateJ → List SlicePlateJ
  | _, [] => []
  | i, p :: rest =>
    { p with metadata := alistSet p.metadata "index" (toString (i + 1)) } ::
      renumberSlice (i + 1) rest

/-- Source: serializer.py lines 542-567, `_clean_stale_slice_plates`. -/
def _clean_stale_slice_plates (plates_json : List SlicePlateJ) (valid_names : List String) :
    List SlicePlateJ :=
  if plates_json.isEmpty then plates_json
  else renumberSlice 0 (cleanPassSlice valid_names plates_json)

end BamBlend

namespace BamBlend

/-- Helper: after `alistSet m k v`, looking up `k` yields `v`. -/
theorem lookupKV_alistSet_self (m : List (String × String)) (k v : String) :
    lookupKV (alistSet m k v) k = some v := by
  induction m with
  | nil => simp [alistSet, lookupKV]
  | cons kv rest ih =>
    obtain ⟨k1, v1⟩ := kv
    by_cases h : k1 = k
    · simp [alistSet, h, lookupKV]
    · simp [alistSet, h, lookupKV, ih]

/-- Helper: setting the same key to the same value twice equals setting it
once. -/
theorem alistSet_alistSet (m : List (String × String)) (k v : String) :
    alistSet (alistSet m k v) k v = alistSet m k v := by
  induction m with
  | nil => simp [alistSet]
  | cons kv rest ih =>
    obtain ⟨k1, v1⟩ := kv
    by_cases h : k1 = k
    · simp [alistSet, h]
    · simp [alistSet, h, ih]

/-- Helper: every plate surviving `cleanPassPlates` has an already-filtered,
nonempty instance list. -/
theorem cleanPassPlates_keeps (v : List String) (l : List MsPlate) :
    ∀ p ∈ cleanPassPlates v l,
      p.instances.filter (instValid v) = p.instances ∧ p.instances ≠ [] := by
  induction l with
  | nil => intro p hp; simp [cleanPassPlates] at hp
  | cons q rest ih =>
    intro p hp
    by_cases hk : (q.instances.filter (instValid v)).isEmpty
    · rw [cleanPassPlates, if_pos hk] at hp
      exact ih p hp
    · rw [cleanPassPlates, if_neg hk] at hp
      rcases List.mem_cons.mp hp with rfl | hmem
      · refine ⟨?_, ?_⟩
        · show (q.instances.filter (instValid v)).filter (instValid v) = _
          exact List.filter_eq_self.mpr (fun a ha => List.of_mem_filter ha)
        · show q.instances.filter (instValid v) ≠ []
          intro hc
          rw [hc] at hk
          simp at hk
      · exact ih p hmem

/-- Helper: `cleanPassPlates` is the identity on lists of plates whose
instance lists are already filtered and nonempty. -/
theorem cleanPassPlates_self (v : List String) (l : List MsPlate)
    (h : ∀ p ∈ l, p.instances.filter (instValid v) = p.instances ∧ p.instances ≠ []) :
    cleanPassPlates v l = l := by
  induction l with
  | nil => rfl
  | cons q rest ih =>
    obtain ⟨hfq, hnq⟩ := h q (List.mem_cons_self q rest)
    have hke : ¬ (q.instances.filter (instValid v)).isEmpty := by
      rw [hfq]
      simpa [List.isEmpty_iff] using hnq
    rw [cleanPassPlates, if_neg hke]
    have : { q with instances := q.instances.filter (instValid v) } = q := by
      rw [hfq]
    rw [this, ih (fun p hp => h p (List.mem_cons_of_mem q hp))]

/-- Helper: renumbering does not change any plate's instance list. -/
theorem renumberPlates_mem (i : ℕ) (l : List MsPlate) :
    ∀ q ∈ renumberPlates i l, ∃ p ∈ l, q.instances = p.instances := by
  induction l generalizing i with
  | nil => intro q hq; simp [renumberPlates] at hq
  | cons p rest ih =>
    intro q hq
    rw [renumberPlates] at hq
    rcases List.mem_cons.mp hq with rfl | hmem
    · exact ⟨p, List.mem_cons_self p rest, rfl⟩
    · obtain ⟨p2, hp2, he⟩ := ih (i + 1) q hmem
      exact ⟨p2, List.mem_cons_of_mem p hp2, he⟩

/-- Helper: renumbering twice from the same start index equals renumbering
once. -/
theorem renumberPlates_renumberPlates (i : ℕ) (l : List MsPlate) :
    renumberPlates i (renumberPlates i l) = renumberPlates i l := by
  induction l generalizing i with
  | nil => rfl
  | cons p rest ih =>
    simp only [renumberPlates]
    rw [alistSet_alistSet, ih (i + 1)]

/-- Helper: renumbering preserves the instance lists, in order. -/
theorem renumberPlates_map_instances (i : ℕ) (l : List MsPlate) :
    (renumberPlates i l).map (fun p => p.instances) = l.map (fun p => p.instances) := by
  induction l generalizing i with
  | nil => rfl
  | cons p rest ih =>
    simp only [renumberPlates, List.map_cons]
    rw [ih (i + 1)]

/-- Helper: after renumbering from start index `i`, the `index` metadata of
the plates reads `i+1, i+2, ...` in order. -/
theorem renumberPlates_index_map (l : List MsPlate) (i : ℕ) :
    (renumberPlates i l).map (fun p => lookupKV p.metadata "index") =
      (List.range l.length).map (fun k => some (toString (i + k + 1))) := by
  induction l generalizing i with
  | nil => rfl
  | cons p rest ih =>
    simp only [renumberPlates, List.map_cons, List.length_cons,
      List.range_succ_eq_map, List.map_map]
    rw [lookupKV_alistSet_self]
    refine congrArg₂ _ rfl ?_
    rw [ih (i + 1)]
    refine List.map_congr_left (fun a _ => ?_)
    simp only [Function.comp]
    exact congrArg (fun n => some (toString n)) (by omega)

/-- Helper: the surviving instance lists of `cleanPassPlates` are exactly
the nonempty filtered instance lists of the input plates, in order. -/
theorem cleanPassPlates_map_instances (v : List String) (l : List MsPlate) :
    (cleanPassPlates v l).map (fun p => p.instances) =
      (l.map (fun p => p.instances.filter (instValid v))).filter
        (fun x => !x.isEmpty) := by
  induction l with
  | nil => rfl
  | cons q rest ih =>
    by_cases hk : (q.instances.filter (instValid v)).isEmpty
    · rw [cleanPassPlates, if_pos hk]
      simp only [List.map_cons, List.filter_cons, hk]
      simpa using ih
    · rw [cleanPassPlates, if_neg hk]
      simp only [List.map_cons, List.filter_cons]
      rw [show (!(q.instances.filter (instValid v)).isEmpty) = true by simpa using hk]
      simpa using ih

end BamBlend

namespace BamBlend

/-- Helper: slice-plate analogue of `cleanPassPlates_keeps`. -/
theorem cleanPassSlice_keeps (v : List String) (l : List SlicePlateJ) :
    ∀ p ∈ cleanPassSlice v l,
      p.objects.filter (sliceObjValid v) = p.objects ∧ p.objects ≠ [] := by
  induction l with
  | nil => intro p hp; simp [cleanPassSlice] at hp
  | cons q rest ih =>
    intro p hp
    by_cases hk : (q.objects.filter (sliceObjValid v)).isEmpty
    · rw [cleanPassSlice, if_pos hk] at hp
      exact ih p hp
    · rw [cleanPassSlice, if_neg hk] at hp
      rcases List.mem_cons.mp hp with rfl | hmem
      · refine ⟨?_, ?_⟩
        · show (q.objects.filter (sliceObjValid v)).filter (sliceObjValid v) = _
          exact List.filter_eq_self.mpr (fun a ha => List.of_mem_filter ha)
        · show q.objects.filter (sliceObjValid v) ≠ []
          intro hc
          rw [hc] at hk
          simp at hk
      · exact ih p hmem

/-- Helper: slice-plate analogue of `cleanPassPlates_self`. -/
theorem cleanPassSlice_self (v : List String) (l : List SlicePlateJ)
    (h : ∀ p ∈ l, p.objects.filter (sliceObjValid v) = p.objects ∧ p.objects ≠ []) :
    cleanPassSlice v l = l := by
  induction l with
  | nil => rfl
  | cons q rest ih =>
    obtain ⟨hfq, hnq⟩ := h q (List.mem_cons_self q rest)
    have hke : ¬ (q.objects.filter (sliceObjValid v)).isEmpty := by
      rw [hfq]
      simpa [List.isEmpty_iff] using hnq
    rw [cleanPassSlice, if_neg hke]
    have : { q with objects := q.objects.filter (sliceObjValid v) } = q := by
      rw [hfq]
    rw [this, ih (fun p hp => h p (List.mem_cons_of_mem q hp))]

/-- Helper: slice-plate analogue of `renumberPlates_mem`. -/
theorem renumberSlice_mem (i : ℕ) (l : List SlicePlateJ) :
    ∀ q ∈ renumberSlice i l, ∃ p ∈ l, q.objects = p.objects := by
  induction l generalizing i with
  | nil => intro q hq; simp [renumberSlice] at hq
  | cons p rest ih =>
    intro q hq
    rw [renumberSlice] at hq
    rcases List.mem_cons.mp hq with rfl | hmem
    · exact ⟨p, List.mem_cons_self p rest, rfl⟩
    · obtain ⟨p2, hp2, he⟩ := ih (i + 1) q hmem
      exact ⟨p2, List.mem_cons_of_mem p hp2, he⟩

/-- Helper: slice-plate analogue of `renumberPlates_renumberPlates`. -/
theorem renumberSlice_renumberSlice (i : ℕ) (l : List SlicePlateJ) :
    renumberSlice i (renumberSlice i l) = renumberSlice i l := by
  induction l generalizing i with
  | nil => rfl
  | cons p rest ih =>
    simp only [renumberSlice]
    rw [alistSet_alistSet, ih (i + 1)]

/-- Helper: slice-plate analogue of `renumberPlates_map_instances`. -/
theorem renumberSlice_map_objects (i : ℕ) (l : List SlicePlateJ) :
    (renumberSlice i l).map (fun p => p.objects) = l.map (fun p => p.objects) := by
  induction l generalizing i with
  | nil => rfl
  | cons p rest ih =>
    simp only [renumberSlice, List.map_cons]
    rw [ih (i + 1)]

/-- Helper: slice-plate analogue of `renumberPlates_index_map`. -/
theorem renumberSlice_index_map (l : List SlicePlateJ) (i : ℕ) :
    (renumberSlice i l).map (fun p => lookupKV p.metadata "index") =
      (List.range l.length).map (fun k => some (toString (i + k + 1))) := by
  induction l generalizing i with
  | nil => rfl
  | cons p rest ih =>
    simp only [renumberSlice, List.map_cons, List.length_cons,
      List.range_succ_eq_map, List.map_map]
    rw [lookupKV_alistSet_self]
    refine congrArg₂ _ rfl ?_
    rw [ih (i + 1)]
    refine List.map_congr_left (fun a _ => ?_)
    simp only [Function.comp]
    exact congrArg (fun n => some (toString n)) (by omega)

/-- Helper: slice-plate analogue of `cleanPassPlates_map_instances`. -/
theorem cleanPassSlice_map_objects (v : List String) (l : List SlicePlateJ) :
    (cleanPassSlice v l).map (fun p => p.objects) =
      (l.map (fun p => p.objects.filter (sliceObjValid v))).filter
        (fun x => !x.isEmpty) := by
  induction l with
  | nil => rfl
  | cons q rest ih =>
    by_cases hk : (q.objects.filter (sliceObjValid v)).isEmpty
    · rw [cleanPassSlice, if_pos hk]
      simp only [List.map_cons, List.filter_cons, hk]
      simpa using ih
    · rw [cleanPassSlice, if_neg hk]
      simp only [List.map_cons, List.filter_cons]
      rw [show (!(q.objects.filter (sliceObjValid v)).isEmpty) = true by simpa using hk]
      simpa using ih

end BamBlend

namespace BamBlend

/-- Helper: renumbering preserves the number of plates. -/
theorem renumberPlates_length (i : ℕ) (l : List MsPlate) :
    (renumberPlates i l).length = l.length := by
  induction l generalizing i with
  | nil => rfl
  | cons p rest ih => simp only [renumberPlates, List.length_cons, ih (i + 1)]

/-- Helper: slice analogue of `renumberPlates_length`. -/
theorem renumberSlice_length (i : ℕ) (l : List SlicePlateJ) :
    (renumberSlice i l).length = l.length := by
  induction l generalizing i with
  | nil => rfl
  | cons p rest ih => simp only [renumberSlice, List.length_cons, ih (i + 1)]

/-- Helper: `_clean_stale_plates` always equals renumber-after-filter (the
`if not ms_plates` early return coincides with the general path on `[]`). -/
theorem clean_stale_plates_eq (l : List MsPlate) (v : List String) :
    _clean_stale_plates l v = renumberPlates 0 (cleanPassPlates v l) := by
  cases l <;> rfl

/-- Helper: slice analogue of `clean_stale_plates_eq`. -/
theorem clean_stale_slice_plates_eq (l : List SlicePlateJ) (v : List String) :
    _clean_stale_slice_plates l v = renumberSlice 0 (cleanPassSlice v l) := by
  cases l <;> rfl

/-- C3: stale-reference cleanup is idempotent for both `_clean_stale_plates`
(valid object-id set) and `_clean_stale_slice_plates` (valid name set); after
cleanup the surviving plates' `index` metadata is exactly the contiguous
sequence "1".."N" with no gaps; and the surviving plates are exactly the
original plates with a nonempty filtered entry list, in original relative
order. -/
theorem c3_cleanup_idempotent_contiguous (ms : List MsPlate) (valid_ids : List String)
    (sp : List SlicePlateJ) (valid_names : List String) :
    (_clean_stale_plates (_clean_stale_plates ms valid_ids) valid_ids =
       _clean_stale_plates ms valid_ids) ∧
    ((_clean_stale_plates ms valid_ids).map (fun p => lookupKV p.metadata "index") =
       (List.range (_clean_stale_plates ms valid_ids).length).map
         (fun i => some (toString (i + 1)))) ∧
    ((_clean_stale_plates ms valid_ids).map (fun p => p.instances) =
       (ms.map (fun p => p.instances.filter (instValid valid_ids))).filter
         (fun x => !x.isEmpty)) ∧
    (_clean_stale_slice_plates (_clean_stale_slice_plates sp valid_names) valid_names =
       _clean_stale_slice_plates sp valid_names) ∧
    ((_clean_stale_slice_plates sp valid_names).map (fun p => lookupKV p.metadata "index") =
       (List.range (_clean_stale_slice_plates sp valid_names).length).map
         (fun i => some (toString (i + 1)))) ∧
    ((_clean_stale_slice_plates sp valid_names).map (fun p => p.objects) =
       (sp.map (fun p => p.objects.filter (sliceObjValid valid_names))).filter
         (fun x => !x.isEmpty)) := by
  refine ⟨?_, ?_, ?_, ?_, ?_, ?_⟩
  · rw [clean_stale_plates_eq, clean_stale_plates_eq]
    have hk : ∀ q ∈ renumberPlates 0 (cleanPassPlates valid_ids ms),
        q.instances.filter (instValid valid_ids) = q.instances ∧ q.instances ≠ [] := by
      intro q hq
      obtain ⟨p, hp, he⟩ := renumberPlates_mem 0 _ q hq
      obtain ⟨h1, h2⟩ := cleanPassPlates_keeps valid_ids ms p hp
      rw [he]
      exact ⟨h1, h2⟩
    rw [cleanPassPlates_self valid_ids _ hk, renumberPlates_renumberPlates]
  · rw [clean_stale_plates_eq, renumberPlates_index_map, renumberPlates_length]
    refine List.map_congr_left (fun a _ => ?_)
    exact congrArg (fun n => some (toString n)) (by omega)
  · rw [clean_stale_plates_eq, renumberPlates_map_instances,
      cleanPassPlates_map_instances]
  · rw [clean_stale_slice_plates_eq, clean_stale_slice_plates_eq]
    have hk : ∀ q ∈ renumberSlice 0 (cleanPassSlice valid_names sp),
        q.objects.filter (sliceObjValid valid_names) = q.objects ∧ q.objects ≠ [] := by
      intro q hq
      obtain ⟨p, hp, he⟩ := renumberSlice_mem 0 _ q hq
      obtain ⟨h1, h2⟩ := cleanPassSlice_keeps valid_names sp p hp
      rw [he]
      exact ⟨h1, h2⟩
    rw [cleanPassSlice_self valid_names _ hk, renumberSlice_renumberSlice]
  · rw [clean_stale_slice_plates_eq, renumberSlice_index_map, renumberSlice_length]
    refine List.map_congr_left (fun a _ => ?_)
    exact congrArg (fun n => some (toString n)) (by omega)
  · rw [clean_stale_slice_plates_eq, renumberSlice_map_objects,
      cleanPassSlice_map_objects]

end BamBlend

namespace BamBlend

/-- Model of one `<filament>` element of slice_info.config as seen by
`_parse_slice_info` (parser.py lines 299-308): the `id` attribute is
assumed present and numeric (otherwise `int()` raises, outside this
claim's quantification); the other attributes are optional. -/
structure FilEl where
  id : ℕ
  ftype : Option String
  color : Option String
  tray_info_idx : Option String
deriving DecidableEq, Repr

/-- The global-filament-table entry built at parser.py lines 312-317. -/
structure FilInfo where
  id : ℕ
  ftype : String
  color : String
  tray_info_idx : String
deriving DecidableEq, Repr

/-- Attribute extraction with the defaults of parser.py lines 303-305. -/
def filInfoOf (f : FilEl) : FilInfo :=
  { id := f.id
    ftype := f.ftype.getD ""
    color := f.color.getD "#808080"
    tray_info_idx := f.tray_info_idx.getD "" }

/-- Lookup in the global filament dict keyed by numeric id. -/
def lookupFil : List (ℕ × FilInfo) → ℕ → Option FilInfo
  | [], _ => none
  | (k, v) :: rest, key => if k = key then some v else lookupFil rest key

/-- One step of the `if fid not in filaments: filaments[fid] = ...` update
(parser.py lines 311-317): insert at the end only when the id is absent. -/
def addFil (tbl : List (ℕ × FilInfo)) (f : FilEl) : List (ℕ × FilInfo) :=
  if (lookupFil tbl f.id).isSome then tbl else tbl ++ [(f.id, filInfoOf f)]

/-- The global filament table computed by `_parse_slice_info`
(parser.py lines 275-320), as a function of the `<filament>` elements of
each `<plate>` in document order: plates outer loop, filaments inner
loop, first occurrence of an id wins. -/
def sliceInfoFilaments (plates : List (List FilEl)) : List (ℕ × FilInfo) :=
  plates.foldl (fun tbl fils => fils.foldl addFil tbl) []

end BamBlend

namespace BamBlend

/-- Helper: looking up a key in an appended singleton. -/
theorem lookupFil_append_single (l : List (ℕ × FilInfo)) (k : ℕ) (v : FilInfo) (key : ℕ) :
    lookupFil (l ++ [(k, v)]) key =
      match lookupFil l key with
      | some w => some w
      | none => if k = key then some v else none := by
  induction l with
  | nil => simp [lookupFil]
  | cons kv rest ih =>
    obtain ⟨k1, v1⟩ := kv
    by_cases h : k1 = key
    · simp [lookupFil, h]
    · simp only [List.cons_append, lookupFil, if_neg h]
      exact ih

/-- Helper: the filter-by-id view of a fold of `addFil` over a stream of
filament elements, relative to an arbitrary accumulator table. -/
theorem foldl_addFil_filter (stream : List FilEl) (acc : List (ℕ × FilInfo)) (fid : ℕ) :
    (stream.foldl addFil acc).filter (fun e => decide (e.1 = fid)) =
      acc.filter (fun e => decide (e.1 = fid)) ++
        (if (lookupFil acc fid).isSome then []
         else ((stream.filter (fun x => decide (x.id = fid))).head?.map
            (fun x => (fid, filInfoOf x))).toList) := by
  induction stream generalizing acc with
  | nil => simp
  | cons f rest ih =>
    simp only [List.foldl_cons, List.filter_cons]
    by_cases hid : f.id = fid
    · subst hid
      by_cases hs : (lookupFil acc f.id).isSome
      · rw [show addFil acc f = acc from by rw [addFil, if_pos hs]]
        rw [ih acc]
        simp [hs]
      · rw [show addFil acc f = acc ++ [(f.id, filInfoOf f)] from by
          rw [addFil, if_neg hs]]
        rw [ih]
        have hlook : (lookupFil (acc ++ [(f.id, filInfoOf f)]) f.id).isSome := by
          rw [lookupFil_append_single]
          cases hl : lookupFil acc f.id with
          | some w => simp
          | none => simp
        rw [if_pos hlook]
        simp [hs, List.filter_append]
    · have hne : ¬ decide (f.id = fid) = true := by simp [hid]
      rw [show addFil acc f = if (lookupFil acc f.id).isSome then acc
            else acc ++ [(f.id, filInfoOf f)] from rfl]
      by_cases hs : (lookupFil acc f.id).isSome
      · rw [if_pos hs, ih acc]
        simp [hne]
      · rw [if_neg hs, ih]
        have hlook : lookupFil (acc ++ [(f.id, filInfoOf f)]) fid = lookupFil acc fid := by
          rw [lookupFil_append_single]
          cases hl : lookupFil acc fid with
          | some w => simp
          | none => simp [hid]
        rw [hlook]
        simp [List.filter_append, hne, hid]

end BamBlend

namespace BamBlend

/-- C6: if two plates of a slice_info input declare filament entries with
the same id but differing type or color, the global filament table holds
exactly one entry for that id, carrying the type and color (and tray data)
of the first occurrence in document order. -/
theorem c6_filament_first_wins (plates : List (List FilEl)) (fid : ℕ)
    (i j : ℕ) (hi : i < plates.length) (hj : j < plates.length) (hij : i < j)
    (f g : FilEl) (hf : f ∈ plates[i]) (hg : g ∈ plates[j])
    (hfid : f.id = fid) (hgid : g.id = fid)
    (hdiff : (filInfoOf f).ftype ≠ (filInfoOf g).ftype ∨
             (filInfoOf f).color ≠ (filInfoOf g).color) :
    ∃ x, (plates.join.filter (fun y => decide (y.id = fid))).head? = some x ∧
      (sliceInfoFilaments plates).filter (fun e => decide (e.1 = fid)) =
        [(fid, filInfoOf x)] := by
  have hjoin : sliceInfoFilaments plates = (plates.join).foldl addFil [] := by
    rw [sliceInfoFilaments, List.foldl_join]
  have hmem : f ∈ plates.join :=
    List.mem_join.mpr ⟨plates[i], List.getElem_mem hi, hf⟩
  have hmemf : f ∈ plates.join.filter (fun y => decide (y.id = fid)) :=
    List.mem_filter.mpr ⟨hmem, by simp [hfid]⟩
  have hne : plates.join.filter (fun y => decide (y.id = fid)) ≠ [] :=
    List.ne_nil_of_mem hmemf
  obtain ⟨x, hx⟩ : ∃ x,
      (plates.join.filter (fun y => decide (y.id = fid))).head? = some x := by
    cases hcl : plates.join.filter (fun y => decide (y.id = fid)) with
    | nil => exact absurd hcl hne
    | cons a t => exact ⟨a, rfl⟩
  refine ⟨x, hx, ?_⟩
  rw [hjoin, foldl_addFil_filter, hx]
  simp [lookupFil]

/-- C6 witness: two plates both declaring filament id 3 with differing
type and color; the table keeps the first plate's entry. -/
theorem c6_filament_first_wins_witness :
    ∃ x, (([[FilEl.mk 3 (some "PLA") (some "#C12E1F") none],
            [FilEl.mk 3 (some "PETG") (some "#00FF00") none]] : List (List FilEl)).join.filter
            (fun y => decide (y.id = 3))).head? = some x ∧
      (sliceInfoFilaments
          [[FilEl.mk 3 (some "PLA") (some "#C12E1F") none],
           [FilEl.mk 3 (some "PETG") (some "#00FF00") none]]).filter
          (fun e => decide (e.1 = 3)) =
        [(3, filInfoOf x)] :=
  c6_filament_first_wins
    [[FilEl.mk 3 (some "PLA") (some "#C12E1F") none],
     [FilEl.mk 3 (some "PETG") (some "#00FF00") none]] 3
    0 1 (by decide) (by decide) (by decide)
    (FilEl.mk 3 (some "PLA") (some "#C12E1F") none)
    (FilEl.mk 3 (some "PETG") (some "#00FF00") none)
    (by decide) (by decide) rfl rfl (by decide)

end BamBlend

namespace BamBlend

/-- Source: parser.py lines 340-345, `_read_zip`.  The ZIP container is
modelled as an association list from part path to decoded content; a
`KeyError` from `zf.read` becomes `none`. -/
def _read_zip (zf : List (String × String)) (path : String) : Option String :=
  lookupKV zf path

/-- Source: parser.py lines 348-351, `_read_zip_str`:
`raw.decode("utf-8") if raw else None` — Python truthiness makes both a
missing part and a present-but-zero-byte part (empty content) yield None. -/
def _read_zip_str (zf : List (String × String)) (path : String) : Option String :=
  match _read_zip zf path with
  | none => none
  | some raw => if raw = "" then none else some raw

/-- Helper: removing every entry for a path makes the lookup miss. -/
theorem read_zip_filter_ne (zf : List (String × String)) (p : String) :
    _read_zip (zf.filter (fun e => !decide (e.1 = p))) p = none := by
  induction zf with
  | nil => rfl
  | cons kv rest ih =>
    obtain ⟨k, v⟩ := kv
    by_cases h : k = p
    · simpa [List.filter_cons, h] using ih
    · simpa [List.filter_cons, h, _read_zip, lookupKV] using ih

/-- C9: when a part exists in the container but holds zero bytes,
`_read_zip_str` returns `none` rather than the empty string, and its
result is identical to that of a container from which the part is
missing entirely — the two cases are indistinguishable. -/
theorem c9_empty_part_reads_absent (zf : List (String × String)) (p : String)
    (h : _read_zip zf p = some "") :
    _read_zip_str zf p = none ∧
      _read_zip_str zf p = _read_zip_str (zf.filter (fun e => !decide (e.1 = p))) p := by
  have h1 : _read_zip_str zf p = none := by
    rw [_read_zip_str, h]
    rfl
  refine ⟨h1, ?_⟩
  rw [h1, _read_zip_str, read_zip_filter_ne]

/-- C9 witness: a container whose only part is present with empty
content reads as absent. -/
theorem c9_empty_part_reads_absent_witness :
    _read_zip_str [("Metadata/project_settings.config", "")]
        "Metadata/project_settings.config" = none ∧
      _read_zip_str [("Metadata/project_settings.config", "")]
          "Metadata/project_settings.config" =
        _read_zip_str
          ([("Metadata/project_settings.config", "")].filter
            (fun e => !decide (e.1 = "Metadata/project_settings.config")))
          "Metadata/project_settings.config" :=
  c9_empty_part_reads_absent [("Metadata/project_settings.config", "")]
    "Metadata/project_settings.config" (by decide)

end BamBlend

namespace BamBlend

/-- Model of Python `int(s)` on a string: optional surrounding
whitespace, optional sign, nonempty digit run; `none` means `ValueError`. -/
def digitsVal (cs : List Char) : Option ℕ :=
  if cs ≠ [] ∧ cs.all (fun c => c.isDigit) then
    some (cs.foldl (fun n c => 10 * n + (c.toNat - 48)) 0)
  else none

/-- Model of Python `int(s)` for a decimal string. -/
def pyInt (s : String) : Option ℤ :=
  match s.trim.data with
  | '-' :: rest => (digitsVal rest).map (fun n => -(n : ℤ))
  | '+' :: rest => (digitsVal rest).map (fun n => (n : ℤ))
  | cs => (digitsVal cs).map (fun n => (n : ℤ))

/-- Model of one `<item>` element of the assembly `<build>` section:
its four attributes, each possibly absent (parser.py lines 141-147). -/
structure ItemEl where
  objectid : Option String
  puuid : Option String
  transform : Option String
  printable : Option String
deriving DecidableEq, Repr

/-- The parsed build item record (parser.py lines 142-147). -/
structure BuildItemR where
  objectid : ℤ
  uuid : String
  transform : String
  printable : Bool
deriving DecidableEq, Repr

/-- Source: parser.py lines 141-147, the build-item extraction of
`_parse_assembly`: `int(item.get("objectid", 0))` (raising on a
non-numeric attribute), `item.get(p:UUID, "")`, `item.get("transform",
"")`, and `item.get("printable", "1") == "1"`. -/
def parseBuildItem (el : ItemEl) : Except Unit BuildItemR :=
  match el.objectid with
  | none =>
    .ok ⟨0, el.puuid.getD "", el.transform.getD "",
         decide ((el.printable.getD "1") = "1")⟩
  | some s =>
    match pyInt s with
    | none => .error ()
    | some oid =>
      .ok ⟨oid, el.puuid.getD "", el.transform.getD "",
           decide ((el.printable.getD "1") = "1")⟩

/-- C10: a parsed build item's `printable` field is true iff the
`printable` attribute is absent or is exactly the string "1"; any other
value (including "true") parses as false. -/
theorem c10_printable_iff (el : ItemEl) (bi : BuildItemR)
    (h : parseBuildItem el = .ok bi) :
    bi.printable = true ↔ el.printable = none ∨ el.printable = some "1" := by
  have hp : bi.printable = decide ((el.printable.getD "1") = "1") := by
    unfold parseBuildItem at h
    split at h
    · cases h
      rfl
    · split at h
      · cases h
      · cases h
        rfl
  rw [hp]
  cases hpr : el.printable with
  | none => simp
  | some s => simp [Option.getD]

/-- C10 witness: the attribute value "true" parses as printable = false. -/
theorem c10_printable_iff_witness :
    (BuildItemR.mk 0 "" "" false).printable = true ↔
      (some "true" : Option String) = none ∨
        (some "true" : Option String) = some "1" :=
  c10_printable_iff ⟨none, none, none, some "true"⟩ ⟨0, "", "", false⟩ (by decide)

end BamBlend

namespace BamBlend

/-- Source: serializer.py lines 322-335, the metadata block of
`_build_main_model`, as the ordered list of (name, text) metadata entries
it emits.  `hostApp` models `get_bambu_version_string()`; `model_metadata`
is the round-tripped ordered metadata dict.  XML line formatting and
`_esc` escaping are orthogonal to entry selection/order and are applied at
string-emission time. -/
def build_main_model_metadata (hostApp : String)
    (model_metadata : List (String × String)) : List (String × String) :=
  let app := if model_metadata.isEmpty then hostApp
             else (lookupKV model_metadata "Application").getD hostApp
  ("Application", app) ::
  ("BambuStudio:3mfVersion", "1") ::
  (if model_metadata.isEmpty then []
   else model_metadata.filter (fun kv =>
     !decide (kv.1 = "Application") && !decide (kv.1 = "BambuStudio:3mfVersion") &&
       !decide (kv.2 = "")))

/-- C5 counterexample: a round-tripped metadata entry with an empty value
("Title" -> "") is dropped from the serialized metadata block (the code
requires `val` truthy at serializer.py line 334), so the emitted entries
are not "the remaining round-tripped metadata entries in original order". -/
theorem c5_counterexample :
    build_main_model_metadata "BambuStudio-01.00.00.00" [("Title", "")] =
      [("Application", "BambuStudio-01.00.00.00"),
       ("BambuStudio:3mfVersion", "1")] ∧
    ("Title", "") ∉
      build_main_model_metadata "BambuStudio-01.00.00.00" [("Title", "")] ∧
    build_main_model_metadata "BambuStudio-01.00.00.00" [("Title", "")] ≠
      [("Application", "BambuStudio-01.00.00.00"),
       ("BambuStudio:3mfVersion", "1"),
       ("Title", "")] := by
  refine ⟨by decide, by decide, by decide⟩

/-- C5 (amended): the serialized main-model metadata always begins with an
Application entry (round-tripped value when the key is present, else the
host-supplied version string), then the BambuStudio:3mfVersion entry, then
exactly the round-tripped entries whose key is neither of the two already
emitted and whose value is non-empty, in their original order. -/
theorem c5_metadata_layout (hostApp : String)
    (model_metadata : List (String × String)) :
    build_main_model_metadata hostApp model_metadata =
      ("Application", (lookupKV model_metadata "Application").getD hostApp) ::
      ("BambuStudio:3mfVersion", "1") ::
      model_metadata.filter (fun kv =>
        !decide (kv.1 = "Application") && !decide (kv.1 = "BambuStudio:3mfVersion") &&
          !decide (kv.2 = "")) := by
  cases model_metadata with
  | nil => rfl
  | cons kv rest => rfl

end BamBlend

namespace BamBlend

/-- Scalar data of one Blender object as the exporter reads it: its name,
type, and the Bambu custom properties (`Option` = property absent), plus
the geometry and transforms the host supplies (serializer.py lines 83-125,
184-201, 215-304). -/
structure ObjData where
  name : String
  otype : String
  bambu_object_id : Option ℕ
  bambu_uuid : Option String
  bambu_build_transform : String
  bambu_printable : Option Bool
  bambu_part_id : Option ℕ
  bambu_part_uuid : Option String
  bambu_subtype : Option String
  bambu_part_name : Option String
  bambu_extruder : Option ℕ
  bambu_component_transform : String
  matrix_world : Mat4
  matrix_local : Mat4
  vertices : List (ℚ × ℚ × ℚ)
  triangles : List (ℕ × ℕ × ℕ)

/-- A scene object: its data plus its Blender children. -/
inductive SceneObj where
  | mk (data : ObjData) (children : List SceneObj)

/-- Data accessor for `SceneObj`. -/
def SceneObj.data : SceneObj → ObjData
  | .mk d _ => d

/-- Children accessor for `SceneObj`. -/
def SceneObj.children : SceneObj → List SceneObj
  | .mk _ cs => cs

/-- An export group: `(parent, children)` (serializer.py line 185). -/
abbrev Grp := SceneObj × List SceneObj

/-- Stand-in for the space-joined "%.9g"-formatted transform string of
`matrix_to_3mf_transform`: exact decimal-free rendering of the twelve
rationals (the formatting itself is outside the rational model). -/
def transformString (vals : List ℚ) : String :=
  String.intercalate " " (vals.map (fun q => toString q))

/-- Source: serializer.py lines 184-201, `_collect_export_groups`.
`source` is `context.selected_objects` or `context.scene.objects`. -/
def _collect_export_groups (source : List SceneObj) : List Grp :=
  let empties := source.filter (fun o =>
    decide (o.data.otype = "EMPTY") && o.data.bambu_object_id.isSome)
  if empties.isEmpty then
    (source.filter (fun o => decide (o.data.otype = "MESH"))).map (fun m => (m, [m]))
  else
    empties.filterMap (fun e =>
      let cs := e.children.filter (fun c => decide (c.data.otype = "MESH"))
      if cs.isEmpty then none else some (e, cs))

/-- Model of the `while fallback_id in used_ids: fallback_id += 1` loop of
`_build_sub_model` (serializer.py line 248): first candidate at or after
`start` not in `used`.  Fuel `used.length + 1` always suffices: among the
`used.length + 1` distinct candidates examined, at least one is unused. -/
def nextFreeAux : ℕ → List ℕ → ℕ → ℕ
  | 0, _, c => c
  | fuel + 1, used, c => if c ∈ used then nextFreeAux fuel used (c + 1) else c

/-- First-fit id allocation (serializer.py lines 247-252). -/
def nextFree (used : List ℕ) (start : ℕ) : ℕ :=
  nextFreeAux (used.length + 1) used start

/-- One component record produced by `_build_sub_model`
(serializer.py lines 295-299). -/
structure SubComp where
  id : ℕ
  uuid : String
  transform : String
deriving DecidableEq, Repr

/-- Source: serializer.py lines 244-299, the per-child loop of
`_build_sub_model`: part-id assignment (reuse stored `bambu_part_id`,
else first-fit from the per-sub-model `used_ids` set), part uuid (stored
or fresh), and component transform (stored or computed from
`matrix_local`).  `uuids` is the oracle for `str(uuid.uuid4())` draws,
threaded by draw count `uc`. -/
def subModelComponents (uuids : ℕ → String) :
    List SceneObj → List ℕ → ℕ → ℕ → List SubComp × ℕ
  | [], _, _, uc => ([], uc)
  | c :: rest, used, fb, uc =>
    let pidState :=
      match c.data.bambu_part_id with
      | some i => (i, used, fb)
      | none =>
        let p := nextFree used fb
        (p, p :: used, p + 1)
    let uuState :=
      match c.data.bambu_part_uuid with
      | some s => (s, uc)
      | none => (uuids uc, uc + 1)
    let tr :=
      if c.data.bambu_component_transform = "" then
        transformString (matrix_to_3mf_transform c.data.matrix_local M_TO_MM)
      else c.data.bambu_component_transform
    let res := subModelComponents uuids rest pidState.2.1 pidState.2.2 uuState.2
    (⟨pidState.1, uuState.1, tr⟩ :: res.1, res.2)

/-- Assembly component entry (serializer.py lines 103-109). -/
structure AsmComp where
  path : String
  objectid : ℕ
  uuid : String
  transform : String
deriving DecidableEq, Repr

/-- Assembly object entry (serializer.py lines 110-114). -/
structure AsmObj where
  id : ℕ
  uuid : String
  components : List AsmComp
deriving DecidableEq, Repr

/-- Build item entry (serializer.py lines 120-125). -/
structure BItem where
  objectid : ℕ
  uuid : String
  transform : String
  printable : Bool
deriving DecidableEq, Repr

/-- Source: serializer.py lines 83-125, the per-group loop of
`export_3mf`: assembly-id assignment (reuse stored `bambu_object_id`,
else take the current value of the shared `next_part_id` counter and
increment it — note the counter is not checked against stored ids), the
sub-model data, the assembly object and the build item.  Returns
(sub-model (path, children) list, assembly objects, build items, uuid
draw count). -/
def exportGroups (uuids : ℕ → String) :
    List Grp → ℕ → ℕ →
      List (String × List SceneObj) × List AsmObj × List BItem × ℕ
  | [], _, uc => ([], [], [], uc)
  | g :: rest, next_part_id, uc =>
    let parent := g.1
    let idPair :=
      match parent.data.bambu_object_id with
      | some i => (i, next_part_id)
      | none => (next_part_id, next_part_id + 1)
    let assembly_id := idPair.1
    let sub_path := "/3D/Objects/object_" ++ toString assembly_id ++ ".model"
    let sm := subModelComponents uuids g.2
      (g.2.filterMap (fun c => c.data.bambu_part_id)) 1 uc
    let ouPair :=
      match parent.data.bambu_uuid with
      | some s => (s, sm.2)
      | none => (uuids sm.2, sm.2 + 1)
    let components := sm.1.map (fun c => AsmComp.mk sub_path c.id c.uuid c.transform)
    let bi_transform :=
      if parent.data.bambu_build_transform = "" then
        transformString (matrix_to_3mf_transform parent.data.matrix_world M_TO_MM)
      else parent.data.bambu_build_transform
    let bi_uuid := uuids ouPair.2
    let res := exportGroups uuids rest idPair.2 (ouPair.2 + 1)
    ((sub_path, g.2) :: res.1,
     AsmObj.mk assembly_id ouPair.1 components :: res.2.1,
     BItem.mk assembly_id bi_uuid bi_transform (parent.data.bambu_printable.getD true)
       :: res.2.2.1,
     res.2.2.2)

end BamBlend

namespace BamBlend

/-- Source: serializer.py lines 454-481, `_generate_default_plates`:
one plate holding every group with `instance_id "0"` and sequential
`identify_id` 0..N-1, plus matching assemble items. -/
def _generate_default_plates (groups : List Grp) (assembly_objects : List AsmObj) :
    List MsPlate × List AsmItem :=
  let pairs := List.zip groups assembly_objects
  let instances := pairs.enum.map (fun p =>
    [("object_id", toString p.2.2.id), ("instance_id", "0"),
     ("identify_id", toString p.1)])
  let assemble_items := pairs.map (fun p => AsmItem.mk (toString p.2.id) "0" "" "")
  ([⟨[("index", "1"), ("locked", "false")], instances⟩], assemble_items)

/-- Source: serializer.py lines 484-497, `_generate_default_slice_plates`:
a single plate listing each group by name with sequential identify_ids.
The generated plate dict carries no top-level "index" key; the unread
`index` field is modelled as 0. -/
def _generate_default_slice_plates (groups : List Grp)
    (assembly_objects : List AsmObj) : List SlicePlateJ :=
  let objects := (List.zip groups assembly_objects).enum.map (fun p =>
    SliceObjJ.mk (toString p.1) p.2.1.1.data.name false)
  [⟨0, [("index", "1")], objects, []⟩]

/-- The round-trip blobs retrieved from the Bambu collection
(serializer.py lines 40-70), after JSON decoding. -/
structure RoundTripBlobs where
  project_settings : String
  model_metadata : List (String × String)
  plates_json : List SlicePlateJ
  filaments_json : List (String × FilR)
  ms_plates_json : List MsPlate
  ms_assemble_json : List AsmItem

/-- The content written for one ZIP part, represented as the builder call
(with its full argument data) whose string rendering `zf.writestr`
receives; the XML/string rendering itself is not re-modelled here. -/
inductive PartContent where
  | contentTypes
  | rootRels
  | mainModel (assembly_objects : List AsmObj) (build_items : List BItem)
      (model_metadata : List (String × String))
  | modelRels (sub_model_refs : List String)
  | subModel (children : List SceneObj)
  | modelSettings (groups : List Grp) (assembly_objects : List AsmObj)
      (ms_plates : List MsPlate) (ms_assemble : List AsmItem)
  | sliceInfo (groups : List Grp) (plates : List SlicePlateJ)
      (filaments : List (String × FilR))
  | projectSettings (s : String)

/-- Model of `path.lstrip("/")` (serializer.py line 159). -/
def stripSlash (s : String) : String :=
  s.dropWhile (fun c => c = '/')

/-- Source: serializer.py lines 33-177, `export_3mf`: collect groups
(returning `{"CANCELLED"}` with no file written — the ZIP is only opened
after the guard), assign ids, clean stale references, generate defaults,
and write every part in program order.  The result is the status string
plus the ordered list of (ZIP path, content) writes.
`model_settings.config` and `slice_info.config` are always written: their
builders return strings starting with the XML declaration, so the
`if model_settings_xml:` / `if slice_info_xml:` guards are always truthy. -/
def export_3mf (source : List SceneObj) (blobs : RoundTripBlobs)
    (uuids : ℕ → String) : String × List (String × PartContent) :=
  let groups := _collect_export_groups source
  if groups.isEmpty then ("CANCELLED", [])
  else
    let eg := exportGroups uuids groups 1 0
    let sub_model_data := eg.1
    let assembly_objects := eg.2.1
    let build_items := eg.2.2.1
    let valid_object_ids := assembly_objects.map (fun a => toString a.id)
    let valid_names := groups.map (fun g => g.1.data.name)
    let ms_plates := _clean_stale_plates blobs.ms_plates_json valid_object_ids
    let ms_assemble := _clean_stale_assemble blobs.ms_assemble_json valid_object_ids
    let plates := _clean_stale_slice_plates blobs.plates_json valid_names
    let msFinal :=
      if ms_plates.isEmpty then _generate_default_plates groups assembly_objects
      else (ms_plates, ms_assemble)
    let platesFinal :=
      if plates.isEmpty then _generate_default_slice_plates groups assembly_objects
      else plates
    let writes :=
      [("[Content_Types].xml", PartContent.contentTypes),
       ("_rels/.rels", PartContent.rootRels),
       ("3D/3dmodel.model",
         PartContent.mainModel assembly_objects build_items blobs.model_metadata),
       ("3D/_rels/3dmodel.model.rels",
         PartContent.modelRels (sub_model_data.map (fun sc => sc.1)))] ++
      sub_model_data.map (fun sc => (stripSlash sc.1, PartContent.subModel sc.2)) ++
      [("Metadata/model_settings.config",
         PartContent.modelSettings groups assembly_objects msFinal.1 msFinal.2),
       ("Metadata/slice_info.config",
         PartContent.sliceInfo groups platesFinal blobs.filaments_json)] ++
      (if blobs.project_settings = "" then []
       else [("Metadata/project_settings.config",
              PartContent.projectSettings blobs.project_settings)])
    ("FINISHED", writes)

end BamBlend

namespace BamBlend

/-- C8: when the collected export-group list is empty, `export_3mf`
returns the cancelled status and performs no write at all (the guard
precedes the `zipfile.ZipFile(filepath, "w")` that would create the
file). -/
theorem c8_empty_export_cancelled (source : List SceneObj)
    (blobs : RoundTripBlobs) (uuids : ℕ → String)
    (h : _collect_export_groups source = []) :
    export_3mf source blobs uuids = ("CANCELLED", []) := by
  unfold export_3mf
  rw [h]
  rfl

/-- C8 witness: exporting an empty scene is cancelled with no writes. -/
theorem c8_empty_export_cancelled_witness :
    export_3mf [] ⟨"", [], [], [], [], []⟩ (fun n => toString n) =
      ("CANCELLED", []) :=
  c8_empty_export_cancelled [] ⟨"", [], [], [], [], []⟩ (fun n => toString n) rfl

end BamBlend

namespace BamBlend

/-- A mesh child carrying no stored part id (fresh part, first-fit id). -/
def c2Child : SceneObj :=
  .mk { name := "part", otype := "MESH", bambu_object_id := none,
        bambu_uuid := none, bambu_build_transform := "",
        bambu_printable := none, bambu_part_id := none,
        bambu_part_uuid := some "cu", bambu_subtype := none,
        bambu_part_name := none, bambu_extruder := none,
        bambu_component_transform := "ct",
        matrix_world := identity4, matrix_local := identity4,
        vertices := [], triangles := [] } []

/-- A parent Empty with (`some i`) or without (`none`) a stored
`bambu_object_id`. -/
def c2Parent (oid : Option ℕ) : SceneObj :=
  .mk { name := "obj", otype := "EMPTY", bambu_object_id := oid,
        bambu_uuid := some "pu", bambu_build_transform := "bt",
        bambu_printable := none, bambu_part_id := none,
        bambu_part_uuid := none, bambu_subtype := none,
        bambu_part_name := none, bambu_extruder := none,
        bambu_component_transform := "",
        matrix_world := identity4, matrix_local := identity4,
        vertices := [], triangles := [] } [c2Child]

/-- C2 (code bug): exporting two groups — the first without a stored
assembly id, the second with stored id 1, each with one fresh child —
assigns assembly ids [1, 1] (the shared counter is never checked against
stored ids) and part id 1 in each of the two sub-models (the `used_ids`
set of `_build_sub_model` is per-group), so neither the assembly ids nor
the part ids across sub-models are pairwise distinct, contradicting the
claim, the spec's uniqueness invariant, and the code's own comment at
serializer.py lines 79-81. -/
theorem c2_duplicate_ids_eval :
    ((exportGroups (fun n => toString n)
        [(c2Parent none, [c2Child]), (c2Parent (some 1), [c2Child])] 1 0).2.1.map
          (fun a => a.id)) = [1, 1] ∧
    ¬ ((exportGroups (fun n => toString n)
        [(c2Parent none, [c2Child]), (c2Parent (some 1), [c2Child])] 1 0).2.1.map
          (fun a => a.id)).Nodup ∧
    ((exportGroups (fun n => toString n)
        [(c2Parent none, [c2Child]), (c2Parent (some 1), [c2Child])] 1 0).2.1.map
          (fun a => a.components.map (fun c => c.objectid))).join = [1, 1] ∧
    ¬ (((exportGroups (fun n => toString n)
        [(c2Parent none, [c2Child]), (c2Parent (some 1), [c2Child])] 1 0).2.1.map
          (fun a => a.components.map (fun c => c.objectid))).join).Nodup := by
  decide

end BamBlend
